import Mathlib

/-!
Verification of the image-compatibility scheduler plugin
(`pkg/plugins/compatibilityPlugin`).

The Go plugin is shallowly embedded: external calls (artifact fetch, the
NodeFeatureGroups Get/Create of the NFD clientset) are modelled as explicit
environment functions, Go maps `map[string]struct{}` as `Finset String`,
Go string slices as `List String`, and the plugin's `imageToNFGCache`
(`map[string][]string`) as an association list.  Each definition mirrors one
Go function of `image_compatibility_plugin.go` / `types.go` and is named
after it.
-/

namespace ImageCompat

/-! ## Node-Set Intersector (`getNFGNodes`, `computeIntersection`) -/

/-- Embedding of `getNFGNodes`: the clientset `Get` for a group name either
fails (`none`) or yields the group's `Status.Nodes` name list, which the Go
code loads into a `map[string]struct{}`, i.e. a finite set. -/
def getNFGNodes (env : String → Option (List String)) (nfgName : String) :
    Option (Finset String) :=
  match env nfgName with
  | none => none
  | some statusNodes => some statusNodes.toFinset

/-- One iteration of the loop body of `computeIntersection`: a failed read
(`err != nil`) or an empty node map (`len(nodes) == 0`) is skipped
(`continue`); the first surviving node set seeds the intersection
(`first = true` branch); each later one is intersected in. -/
def interStep (env : String → Option (List String))
    (intersection : Option (Finset String)) (nfgName : String) :
    Option (Finset String) :=
  match getNFGNodes env nfgName with
  | none => intersection
  | some nodes =>
    if nodes = ∅ then intersection
    else
      match intersection with
      | none => some nodes
      | some inter => some (inter ∩ nodes)

/-- Embedding of `computeIntersection`: fold the loop body over the group
names starting from the nil map; a nil intersection at the end becomes the
empty map. -/
def computeIntersection (env : String → Option (List String))
    (nfgNames : List String) : Finset String :=
  match nfgNames.foldl (interStep env) none with
  | none => ∅
  | some s => s

/-! ## Feature-Group Cache (`updateCacheForImage`, `removeFromCache`,
`getValidCachedNFGs`); the Go `map[string][]string` is an association list,
lookup/overwrite/delete hold the map semantics. -/

/-- Cache from image identity to the list of created NFG names. -/
abbrev Cache := List (String × List String)

/-- Map read `f.imageToNFGCache[imageName]` (with the `found` flag fused in
as `Option`). -/
def cacheLookup (c : Cache) (imageName : String) : Option (List String) :=
  (c.find? (fun p => p.1 == imageName)).map (fun p => p.2)

/-- Map delete `delete(f.imageToNFGCache, imageName)`. -/
def cacheErase (c : Cache) (imageName : String) : Cache :=
  c.filter (fun p => p.1 != imageName)

/-- Map write `f.imageToNFGCache[imageName] = nfgNames` (overwrite). -/
def cacheInsert (c : Cache) (imageName : String) (nfgNames : List String) :
    Cache :=
  cacheErase c imageName ++ [(imageName, nfgNames)]

/-- Embedding of `updateCacheForImage`: an empty name list returns without
touching the map; otherwise the entry is overwritten. -/
def updateCacheForImage (c : Cache) (imageName : String)
    (nfgNames : List String) : Cache :=
  if nfgNames = [] then c else cacheInsert c imageName nfgNames

/-- Embedding of `removeFromCache`. -/
def removeFromCache (c : Cache) (imageName : String) : Cache :=
  cacheErase c imageName

/-- Embedding of `getValidCachedNFGs`.  `getEnv name = true` models a
successful clientset `Get` for that group name.  Returns the new cache, the
valid names and the `found` flag; Go's `nil` result slice is `[]`. -/
def getValidCachedNFGs (getEnv : String → Bool) (c : Cache)
    (imageName : String) : Cache × List String × Bool :=
  match cacheLookup c imageName with
  | none => (c, [], false)
  | some cachedNFGs =>
    if cachedNFGs = [] then (c, [], false)
    else
      let validNFGs := cachedNFGs.filter getEnv
      if validNFGs = [] then (removeFromCache c imageName, [], false)
      else if validNFGs.length ≠ cachedNFGs.length then
        (updateCacheForImage c imageName validNFGs, validNFGs, true)
      else (c, validNFGs, true)

/-! ## Reconciliation Driver (`collectCompatibleNodesFromNFGs`) -/

/-- Modelled from the spec: the constant `NfdUpdateGracePeriod` is referenced
by `collectCompatibleNodesFromNFGs` as its maximum wait, but its defining
declaration is not among the provided source files; the spec fixes it only as
a bounded total wait "on the order of several seconds".  Modelled as 5000
milliseconds.  The theorems below depend only on it being a fixed finite
bound, not on the value. -/
def NfdUpdateGracePeriodMs : Nat := 5000

/-- The poll loop of `collectCompatibleNodesFromNFGs`, time passing
discretely: polls are instantaneous and each `time.Sleep(retryInterval)`
advances elapsed time by the hard-coded 500 ms, so the loop guard
`time.Since(startTime) < maxWait` at attempt `n` reads `n * 500 < maxWait`.
`pollEnv k` is the state of the external store seen by poll `k`.  Returns
the node set together with the number of polls performed. -/
def collectFrom (pollEnv : Nat → String → Option (List String))
    (nfgNames : List String) (maxWaitMs : Nat) (attempt : Nat) :
    Finset String × Nat :=
  if h : attempt * 500 < maxWaitMs then
    let inter := computeIntersection (pollEnv attempt) nfgNames
    if inter = ∅ then collectFrom pollEnv nfgNames maxWaitMs (attempt + 1)
    else (inter, attempt + 1)
  else (∅, attempt)
termination_by maxWaitMs - attempt * 500
decreasing_by omega

/-- Embedding of `collectCompatibleNodesFromNFGs`: run the poll loop from
time zero with `maxWait := NfdUpdateGracePeriod`; both Go return paths carry
a nil error, kept as the final `Option String` component (`none` = nil). -/
def collectCompatibleNodesFromNFGs (pollEnv : Nat → String → Option (List String))
    (nfgNames : List String) : Finset String × Nat × Option String :=
  let r := collectFrom pollEnv nfgNames NfdUpdateGracePeriodMs 0
  (r.1, r.2, none)

/-- A Go context handed to the loop: the only way `ctx` influences
`collectCompatibleNodesFromNFGs` is through the clientset `Get` calls inside
`computeIntersection`, which all fail once the context is cancelled or past
its deadline.  `cancelAt` is the poll index from which the context is done. -/
def ctxPollEnv (cancelAt : Nat) (base : String → Option (List String)) :
    Nat → String → Option (List String) :=
  fun attempt name => if cancelAt ≤ attempt then none else base name

/-! ## Group creation pipeline (`createNodeFeatureGroupsForImage`,
`createNodeFeatureGroupsForPod`).  The reference-parse + artifact-fetch +
`CreateNodeFeatureGroupsFromArtifact` call chain is one external step
per image, modelled by `imgEnv`: an error anywhere in the chain is
`Except.error ()`, success is the list of created group names.  The external
store is the `world` list of group names created so far (a successful
creation appends, nothing is ever rolled back). -/

/-- Embedding of `createNodeFeatureGroupsForImage`: consult the cache first;
on a hit return the cached names with no creation; otherwise run the
creation chain, append the created groups to the store and record the names
in the cache (`updateCacheForImage`, which ignores an empty list). -/
def createNodeFeatureGroupsForImage (getEnv : String → Bool)
    (imgEnv : String → Except Unit (List String)) (c : Cache)
    (world : List String) (imageName : String) :
    Cache × List String × Except Unit (List String) :=
  match getValidCachedNFGs getEnv c imageName with
  | (c1, validNFGs, true) => (c1, world, Except.ok validNFGs)
  | (c1, _, false) =>
    match imgEnv imageName with
    | Except.error e => (c1, world, Except.error e)
    | Except.ok nfgNames =>
      (updateCacheForImage c1 imageName nfgNames, world ++ nfgNames,
        Except.ok nfgNames)

/-- Embedding of `createNodeFeatureGroupsForPod`: loop over the Pod's
container images accumulating `createdNFGs`; the first per-image error
aborts the loop and is returned (Go returns `nil, err`, carrying no names,
while the cache writes and store creations already made persist). -/
def createNodeFeatureGroupsForPod (getEnv : String → Bool)
    (imgEnv : String → Except Unit (List String)) (c : Cache)
    (world : List String) (images : List String) :
    Cache × List String × Except Unit (List String) :=
  match images with
  | [] => (c, world, Except.ok [])
  | image :: rest =>
    match createNodeFeatureGroupsForImage getEnv imgEnv c world image with
    | (c1, w1, Except.error e) => (c1, w1, Except.error e)
    | (c1, w1, Except.ok nfgNames) =>
      match createNodeFeatureGroupsForPod getEnv imgEnv c1 w1 rest with
      | (c2, w2, Except.error e) => (c2, w2, Except.error e)
      | (c2, w2, Except.ok restNames) =>
        (c2, w2, Except.ok (nfgNames ++ restNames))

/-! ## Scheduling-Cycle State and the Filter / PreFilter extension points -/

/-- Embedding of `CompatibilityState` (`types.go`): the compatible node set,
the created group names, and the namespace the groups live in. -/
structure CompatibilityState where
  CompatibleNodes : Finset String
  CreatedNFGs : List String
  Namespace : String
  deriving DecidableEq

/-- The three `fwk.Status` codes this plugin produces. -/
inductive StatusCode where
  | Success
  | Error
  | Unschedulable
  deriving DecidableEq

/-- A `fwk.Status`: code plus message (`fwk.NewStatus(code, msg)`; a status
built with no message has `message = ""`). -/
structure Status where
  code : StatusCode
  message : String
  deriving DecidableEq

/-- What `cycleState.Read(PluginName)` followed by the type assertion can
yield inside `getCompatibilityState`: a read error, data of an unexpected
type, or the recorded state. -/
inductive CycleRead where
  | missing
  | wrongType
  | ok (s : CompatibilityState)

/-- Embedding of `getCompatibilityState`. -/
def getCompatibilityState : CycleRead → Except String CompatibilityState
  | CycleRead.missing => Except.error "failed to read cycle state"
  | CycleRead.wrongType => Except.error "unexpected state type"
  | CycleRead.ok s => Except.ok s

/-- Embedding of `Filter`: a nil node or an unreadable cycle state is an
`Error` status; an empty recorded compatible set rejects the node as
`Unschedulable`; a node missing from a non-empty set is `Unschedulable`;
otherwise `Success`. -/
def Filter (cycle : CycleRead) (node : Option String) : Status :=
  match node with
  | none => ⟨StatusCode.Error, "node not found"⟩
  | some nodeName =>
    match getCompatibilityState cycle with
    | Except.error e =>
      ⟨StatusCode.Error, "get compatibility state error: " ++ e⟩
    | Except.ok state =>
      if state.CompatibleNodes = ∅ then
        ⟨StatusCode.Unschedulable,
          "node " ++ nodeName ++ " is not compatible with pod images"⟩
      else if nodeName ∈ state.CompatibleNodes then
        ⟨StatusCode.Success, ""⟩
      else
        ⟨StatusCode.Unschedulable,
          "node " ++ nodeName ++
            " is not listed in any compatible NodeFeatureGroup status"⟩

/-- Embedding of the state-relevant path of `PreFilter`: create the groups
for every container image, then collect the compatible nodes and write the
`CompatibilityState` into the cycle state.  `updateCompatibilityNFGsWithPreGroups`
is omitted: per source it only reads and logs (its status write-back is an
unimplemented TODO) and its error is explicitly tolerated, so it changes no
state this model tracks; the namespace-discovery step is likewise modelled
out (it only produces the `ns` argument).  `collectCompatibleNodesFromNFGs`
always returns a nil error, so its error branch in `PreFilter` is dead. -/
def PreFilter (getEnv : String → Bool)
    (imgEnv : String → Except Unit (List String))
    (pollEnv : Nat → String → Option (List String)) (ns : String)
    (c : Cache) (world : List String) (images : List String) :
    Cache × List String × Except Unit CompatibilityState :=
  match createNodeFeatureGroupsForPod getEnv imgEnv c world images with
  | (c1, w1, Except.error e) => (c1, w1, Except.error e)
  | (c1, w1, Except.ok createdNFGs) =>
    (c1, w1, Except.ok
      { CompatibleNodes := (collectCompatibleNodesFromNFGs pollEnv createdNFGs).1
        CreatedNFGs := createdNFGs
        Namespace := ns })

/-! ## Heap model for `CompatibilityState.Clone`.  Go maps and slices are
reference values; `Clone` must allocate fresh ones and copy the contents.
The store holds all allocated node-set maps and name slices; a state value
holds references (indices) into it, as the Go struct holds pointers. -/

/-- All allocated `map[string]struct{}` and `[]string` values. -/
structure Store where
  maps : List (Finset String)
  slices : List (List String)
  deriving DecidableEq

/-- A `CompatibilityState` as Go lays it out: references to its node-set map
and its created-names slice, plus the inline namespace string. -/
structure StateRef where
  nodesRef : Nat
  nfgsRef : Nat
  ns : String
  deriving DecidableEq

/-- Dereference a node-set map. -/
def readNodes (st : Store) (r : Nat) : Finset String :=
  st.maps.getD r ∅

/-- Dereference a name slice. -/
def readNFGs (st : Store) (r : Nat) : List String :=
  st.slices.getD r []

/-- Allocate a fresh node-set map holding `v` (Go `make` + copy loop). -/
def allocNodes (st : Store) (v : Finset String) : Store × Nat :=
  ({ st with maps := st.maps ++ [v] }, st.maps.length)

/-- Allocate a fresh name slice holding `v` (Go `make` + `copy`). -/
def allocNFGs (st : Store) (v : List String) : Store × Nat :=
  ({ st with slices := st.slices ++ [v] }, st.slices.length)

/-- Embedding of `CompatibilityState.Clone` on a non-nil receiver: allocate a
new map, copy every key of `s.CompatibleNodes` into it, allocate a new slice
of the same length and `copy` `s.CreatedNFGs` into it, and return a state
carrying the fresh references and the same namespace. -/
def cloneState (st : Store) (s : StateRef) : Store × StateRef :=
  let a1 := allocNodes st (readNodes st s.nodesRef)
  let a2 := allocNFGs a1.1 (readNFGs a1.1 s.nfgsRef)
  (a2.1, ⟨a1.2, a2.2, s.ns⟩)

/-- Embedding of `Clone` on a nil receiver: fresh empty map and slice. -/
def cloneNilState (st : Store) : Store × StateRef :=
  let a1 := allocNodes st ∅
  let a2 := allocNFGs a1.1 []
  (a2.1, ⟨a1.2, a2.2, ""⟩)

/-- Mutation `state.CompatibleNodes[n] = struct{}{}` through a state's map
reference. -/
def insertNode (st : Store) (s : StateRef) (n : String) : Store :=
  { st with maps := st.maps.set s.nodesRef (insert n (readNodes st s.nodesRef)) }

/-- Mutation `delete(state.CompatibleNodes, n)`. -/
def eraseNode (st : Store) (s : StateRef) (n : String) : Store :=
  { st with maps := st.maps.set s.nodesRef ((readNodes st s.nodesRef).erase n) }

/-- Mutation `state.CreatedNFGs = append(state.CreatedNFGs, g)` writing
through the state's slice reference. -/
def appendNFG (st : Store) (s : StateRef) (g : String) : Store :=
  { st with slices := st.slices.set s.nfgsRef (readNFGs st s.nfgsRef ++ [g]) }

/-! ## Theorems -/

/-- The loop body of `computeIntersection` is right-commutative: processing
two group names in either order from any running intersection gives the same
result.  Skipped groups are absorbing; surviving ones combine by `∩`. -/
theorem interStep_comm (env : String → Option (List String))
    (z : Option (Finset String)) (x y : String) :
    interStep env (interStep env z x) y = interStep env (interStep env z y) x := by
  unfold interStep
  cases hx : getNFGNodes env x <;> cases hy : getNFGNodes env y <;>
    cases z <;> simp only [] <;> try rfl
  case some.some.none s t =>
    by_cases hs : s = ∅ <;> by_cases ht : t = ∅ <;>
      simp [hs, ht, Finset.inter_comm]
  case some.some.some s t u =>
    by_cases hs : s = ∅ <;> by_cases ht : t = ∅ <;>
      simp [hs, ht, Finset.inter_assoc, Finset.inter_comm,
        Finset.inter_left_comm]

/-- C5: `computeIntersection` is order-independent: with each group's
fetched node list held fixed by `env`, every permutation of the group name
list yields the identical node set. -/
theorem computeIntersection_perm (env : String → Option (List String))
    (l₁ l₂ : List String) (hp : l₁.Perm l₂) :
    computeIntersection env l₁ = computeIntersection env l₂ := by
  unfold computeIntersection
  rw [hp.foldl_eq' (fun x _ y _ z => interStep_comm env z x y) none]

/-- Witness for C5: the spec's example sets, both orders. -/
theorem computeIntersection_perm_witness :
    computeIntersection
        (fun n => if n = "a" then some ["n1", "n2", "n3"]
          else some ["n2", "n3", "n4"]) ["a", "b"] =
      computeIntersection
        (fun n => if n = "a" then some ["n1", "n2", "n3"]
          else some ["n2", "n3", "n4"]) ["b", "a"] :=
  computeIntersection_perm _ ["a", "b"] ["b", "a"] (by decide)

/-- C9: a group read successfully with zero matched nodes is skipped exactly
like a failed read: it is absorbing for the loop body (so it can never
collapse a non-empty running intersection), and deleting it from the group
list anywhere leaves the computed intersection unchanged. -/
theorem computeIntersection_empty_group_skipped
    (env : String → Option (List String)) (name : String)
    (h : env name = none ∨ env name = some []) :
    (∀ acc, interStep env acc name = acc) ∧
      ∀ l₁ l₂ : List String,
        computeIntersection env (l₁ ++ name :: l₂) =
          computeIntersection env (l₁ ++ l₂) := by
  have hskip : ∀ acc, interStep env acc name = acc := by
    intro acc
    rcases h with h | h <;> simp [interStep, getNFGNodes, h]
  refine ⟨hskip, fun l₁ l₂ => ?_⟩
  unfold computeIntersection
  rw [List.foldl_append, List.foldl_append, List.foldl_cons, hskip]

/-- Witness for C9: a readable group with an empty node list inserted
between two constraining groups changes nothing. -/
theorem computeIntersection_empty_group_skipped_witness :
    computeIntersection
        (fun n => if n = "z" then some [] else some ["n1", "n2"])
        ["a", "z", "b"] =
      computeIntersection
        (fun n => if n = "z" then some [] else some ["n1", "n2"])
        ["a", "b"] :=
  (computeIntersection_empty_group_skipped
    (fun n => if n = "z" then some [] else some ["n1", "n2"]) "z"
    (Or.inr (by decide))).2 ["a"] ["b"]

/-- If every poll sees an empty intersection, the loop runs its full budget:
from any start attempt not past the budget it returns the empty set after
`⌈maxWait / 500⌉` polls in total. -/
theorem collectFrom_all_empty (pe : Nat → String → Option (List String))
    (nfgNames : List String) (mw : Nat)
    (h : ∀ k, computeIntersection (pe k) nfgNames = ∅) :
    ∀ a, a ≤ (mw + 499) / 500 →
      collectFrom pe nfgNames mw a = (∅, (mw + 499) / 500) := by
  have key : ∀ n a, mw - a * 500 ≤ n → a ≤ (mw + 499) / 500 →
      collectFrom pe nfgNames mw a = (∅, (mw + 499) / 500) := by
    intro n
    induction n with
    | zero =>
      intro a h0 ha
      have hge : ¬a * 500 < mw := by omega
      have hA : a = (mw + 499) / 500 := by omega
      subst hA
      unfold collectFrom
      simp [hge]
    | succ n ih =>
      intro a h0 ha
      by_cases hlt : a * 500 < mw
      · have step := ih (a + 1) (by omega) (by omega)
        unfold collectFrom
        simp [hlt, h a, step]
      · have hA : a = (mw + 499) / 500 := by omega
        subst hA
        unfold collectFrom
        simp [hlt]
  exact fun a => key (mw - a * 500) a le_rfl

/-- If the intersection first becomes non-empty at poll `j`, still inside
the wait budget, the loop returns it at poll `j + 1` from any earlier
attempt. -/
theorem collectFrom_first_nonempty (pe : Nat → String → Option (List String))
    (nfgNames : List String) (mw : Nat) (j : Nat) (hj : j * 500 < mw)
    (hbefore : ∀ k < j, computeIntersection (pe k) nfgNames = ∅)
    (hne : computeIntersection (pe j) nfgNames ≠ ∅) :
    ∀ a, a ≤ j →
      collectFrom pe nfgNames mw a =
        (computeIntersection (pe j) nfgNames, j + 1) := by
  have key : ∀ n a, j - a ≤ n → a ≤ j →
      collectFrom pe nfgNames mw a =
        (computeIntersection (pe j) nfgNames, j + 1) := by
    intro n
    induction n with
    | zero =>
      intro a h0 ha
      have hA : a = j := by omega
      subst hA
      unfold collectFrom
      simp [hj, hne]
    | succ n ih =>
      intro a h0 ha
      by_cases hA : a = j
      · subst hA
        unfold collectFrom
        simp [hj, hne]
      · have halt : a < j := by omega
        have hlt : a * 500 < mw := by omega
        have step := ih (a + 1) (by omega) (by omega)
        unfold collectFrom
        simp [hlt, hbefore a halt, step]
  exact fun a => key (j - a) a le_rfl

/-- The loop never performs more than `⌈maxWait / 500⌉` polls. -/
theorem collectFrom_polls_le (pe : Nat → String → Option (List String))
    (nfgNames : List String) (mw : Nat) :
    ∀ a, a ≤ (mw + 499) / 500 →
      (collectFrom pe nfgNames mw a).2 ≤ (mw + 499) / 500 := by
  have key : ∀ n a, mw - a * 500 ≤ n → a ≤ (mw + 499) / 500 →
      (collectFrom pe nfgNames mw a).2 ≤ (mw + 499) / 500 := by
    intro n
    induction n with
    | zero =>
      intro a h0 ha
      have hge : ¬a * 500 < mw := by omega
      unfold collectFrom
      simp [hge, ha]
    | succ n ih =>
      intro a h0 ha
      by_cases hlt : a * 500 < mw
      · have hsucc : a + 1 ≤ (mw + 499) / 500 := by omega
        have step := ih (a + 1) (by omega) hsucc
        unfold collectFrom
        by_cases hin : computeIntersection (pe a) nfgNames = ∅
        · simp [hlt, hin, step]
        · simp [hlt, hin, hsucc]
      · unfold collectFrom
        simp [hlt, ha]
  exact fun a => key (mw - a * 500) a le_rfl

/-- An environment in which every read fails constrains nothing: the
computed intersection is the empty set. -/
theorem computeIntersection_none (env : String → Option (List String))
    (h : ∀ n, env n = none) (nfgNames : List String) :
    computeIntersection env nfgNames = ∅ := by
  unfold computeIntersection
  rw [List.foldl_fixed' (f := interStep env) (a := none)
    (fun name => by simp [interStep, getNFGNodes, h name])]

/-- C4: the reconciliation driver always terminates within its configured
maximum wait: the error is always nil and the poll count never exceeds the
budget; if the intersection never becomes non-empty it returns the empty
set after the full budget of polls; if the intersection first becomes
non-empty at a poll inside the budget, it returns that intersection
immediately at that poll. -/
theorem collect_bounded_termination
    (pollEnv : Nat → String → Option (List String)) (nfgNames : List String) :
    (collectCompatibleNodesFromNFGs pollEnv nfgNames).2.2 = none ∧
    (collectCompatibleNodesFromNFGs pollEnv nfgNames).2.1 ≤
      (NfdUpdateGracePeriodMs + 499) / 500 ∧
    ((∀ k, computeIntersection (pollEnv k) nfgNames = ∅) →
      collectCompatibleNodesFromNFGs pollEnv nfgNames =
        (∅, (NfdUpdateGracePeriodMs + 499) / 500, none)) ∧
    (∀ j, j * 500 < NfdUpdateGracePeriodMs →
      (∀ k < j, computeIntersection (pollEnv k) nfgNames = ∅) →
      computeIntersection (pollEnv j) nfgNames ≠ ∅ →
      collectCompatibleNodesFromNFGs pollEnv nfgNames =
        (computeIntersection (pollEnv j) nfgNames, j + 1, none)) := by
  refine ⟨rfl, ?_, ?_, ?_⟩
  · exact collectFrom_polls_le pollEnv nfgNames NfdUpdateGracePeriodMs 0
      (Nat.zero_le _)
  · intro h
    unfold collectCompatibleNodesFromNFGs
    rw [collectFrom_all_empty pollEnv nfgNames NfdUpdateGracePeriodMs h 0
      (Nat.zero_le _)]
  · intro j hj hbefore hne
    unfold collectCompatibleNodesFromNFGs
    rw [collectFrom_first_nonempty pollEnv nfgNames NfdUpdateGracePeriodMs j hj
      hbefore hne 0 (Nat.zero_le _)]

/-- Witness for C4: one group that is matched from the very first poll is
returned after a single poll; the error is nil. -/
theorem collect_bounded_termination_witness :
    collectCompatibleNodesFromNFGs (fun _ _ => some ["n1"]) ["g"] =
      (computeIntersection ((fun _ _ => some ["n1"]) 0) ["g"], 1, none) ∧
    computeIntersection ((fun _ _ => some ["n1"]) 0) ["g"] = {"n1"} :=
  ⟨(collect_bounded_termination (fun _ _ => some ["n1"]) ["g"]).2.2.2 0
    (by norm_num [NfdUpdateGracePeriodMs])
    (fun k hk => absurd hk (Nat.not_lt_zero k))
    (by decide),
   by decide⟩

/-- C2 counterexample: a context cancelled before the very first poll (so
every clientset `Get` fails from the start) does not make the loop abort
early: it still performs the full budget of 10 polls — sleeping through the
whole `NfdUpdateGracePeriod` — instead of returning after the first one. -/
theorem collect_ctx_cancel_counterexample :
    (collectCompatibleNodesFromNFGs
        (ctxPollEnv 0 (fun _ => some ["n1"])) ["g"]).2.1 = 10 ∧
    1 < (collectCompatibleNodesFromNFGs
        (ctxPollEnv 0 (fun _ => some ["n1"])) ["g"]).2.1 := by
  have henv : ∀ k n, ctxPollEnv 0 (fun _ => some ["n1"]) k n = none := by
    intro k n
    simp [ctxPollEnv]
  have h : ∀ k, computeIntersection
      (ctxPollEnv 0 (fun _ => some ["n1"]) k) ["g"] = ∅ :=
    fun k => computeIntersection_none _ (henv k) ["g"]
  have hrun := collectFrom_all_empty _ ["g"] NfdUpdateGracePeriodMs h 0
    (Nat.zero_le _)
  unfold collectCompatibleNodesFromNFGs
  rw [hrun]
  norm_num [NfdUpdateGracePeriodMs]

/-- C2 amended: `collectCompatibleNodesFromNFGs` never observes the context;
cancellation only makes every per-group read fail, and such reads are
skipped, so with a context cancelled from the start the loop still polls the
full budget, then returns the empty set with a nil error, rather than
aborting early. -/
theorem collect_ignores_cancellation (base : String → Option (List String))
    (nfgNames : List String) :
    collectCompatibleNodesFromNFGs (ctxPollEnv 0 base) nfgNames =
      (∅, (NfdUpdateGracePeriodMs + 499) / 500, none) := by
  have henv : ∀ k n, ctxPollEnv 0 base k n = none := by
    intro k n
    simp [ctxPollEnv]
  have h : ∀ k, computeIntersection (ctxPollEnv 0 base k) nfgNames = ∅ :=
    fun k => computeIntersection_none _ (henv k) nfgNames
  unfold collectCompatibleNodesFromNFGs
  rw [collectFrom_all_empty _ nfgNames NfdUpdateGracePeriodMs h 0 (Nat.zero_le _)]

/-- C1 counterexample: a Pod with a single image whose compatibility
specification yields zero groups is NOT treated as universally compatible.
`PreFilter` succeeds and records an empty compatible set, and `Filter` then
returns `Unschedulable` — not `Success` — for a candidate node. -/
theorem prefilter_zero_groups_not_universal :
    PreFilter (fun _ => true) (fun _ => Except.ok []) (fun _ _ => none)
        "ns0" [] [] ["img"] =
      ([], [], Except.ok ⟨∅, [], "ns0"⟩) ∧
    (Filter (CycleRead.ok ⟨∅, [], "ns0"⟩) (some "n1")).code =
      StatusCode.Unschedulable ∧
    StatusCode.Unschedulable ≠ StatusCode.Success := by
  have hcollect := collectFrom_all_empty (fun _ _ => none) []
    NfdUpdateGracePeriodMs (fun _ => rfl) 0 (Nat.zero_le _)
  refine ⟨?_, by decide, by decide⟩
  simp [PreFilter, createNodeFeatureGroupsForPod,
    createNodeFeatureGroupsForImage, getValidCachedNFGs, cacheLookup,
    updateCacheForImage, collectCompatibleNodesFromNFGs, hcollect]

/-- C1 amended: an image that resolves to zero feature groups contributes no
restriction — `createNodeFeatureGroupsForImage` returns no names and leaves
cache and store untouched — but a Pod all of whose images resolve to zero
groups is NOT universally compatible: `PreFilter` records an empty
compatible set and `Filter` then rejects every candidate node as
`Unschedulable` with a reason naming the node. -/
theorem zero_group_image_unconstrained_but_rejected :
    (∀ (getEnv : String → Bool) (imgEnv : String → Except Unit (List String))
        (c : Cache) (w : List String) (i : String),
      cacheLookup c i = none → imgEnv i = Except.ok [] →
      createNodeFeatureGroupsForImage getEnv imgEnv c w i =
        (c, w, Except.ok [])) ∧
    (∀ (getEnv : String → Bool) (imgEnv : String → Except Unit (List String))
        (pollEnv : Nat → String → Option (List String)) (ns : String)
        (c : Cache) (w : List String) (i node : String),
      cacheLookup c i = none → imgEnv i = Except.ok [] →
      PreFilter getEnv imgEnv pollEnv ns c w [i] =
        (c, w, Except.ok ⟨∅, [], ns⟩) ∧
      Filter (CycleRead.ok ⟨∅, [], ns⟩) (some node) =
        ⟨StatusCode.Unschedulable,
          "node " ++ node ++ " is not compatible with pod images"⟩) := by
  have himg : ∀ (getEnv : String → Bool)
      (imgEnv : String → Except Unit (List String))
      (c : Cache) (w : List String) (i : String),
      cacheLookup c i = none → imgEnv i = Except.ok [] →
      createNodeFeatureGroupsForImage getEnv imgEnv c w i =
        (c, w, Except.ok []) := by
    intro getEnv imgEnv c w i hmiss hzero
    simp [createNodeFeatureGroupsForImage, getValidCachedNFGs, hmiss, hzero,
      updateCacheForImage]
  refine ⟨himg, ?_⟩
  intro getEnv imgEnv pollEnv ns c w i node hmiss hzero
  have hcollect := collectFrom_all_empty pollEnv [] NfdUpdateGracePeriodMs
    (fun _ => rfl) 0 (Nat.zero_le _)
  constructor
  · simp [PreFilter, createNodeFeatureGroupsForPod,
      himg getEnv imgEnv c w i hmiss hzero,
      collectCompatibleNodesFromNFGs, hcollect]
  · rfl

/-- Witness for C1's amended theorem: one image, zero groups, node `n1`
rejected. -/
theorem zero_group_image_unconstrained_but_rejected_witness :
    createNodeFeatureGroupsForImage (fun _ => true) (fun _ => Except.ok [])
        [] [] "img" = ([], [], Except.ok []) ∧
    PreFilter (fun _ => true) (fun _ => Except.ok []) (fun _ _ => none)
        "ns0" [] [] ["img"] = ([], [], Except.ok ⟨∅, [], "ns0"⟩) ∧
    Filter (CycleRead.ok ⟨∅, [], "ns0"⟩) (some "n1") =
      ⟨StatusCode.Unschedulable,
        "node " ++ "n1" ++ " is not compatible with pod images"⟩ :=
  ⟨zero_group_image_unconstrained_but_rejected.1 (fun _ => true)
      (fun _ => Except.ok []) [] [] "img" rfl rfl,
    (zero_group_image_unconstrained_but_rejected.2 (fun _ => true)
      (fun _ => Except.ok []) (fun _ _ => none) "ns0" [] [] "img" "n1"
      rfl rfl).1,
    (zero_group_image_unconstrained_but_rejected.2 (fun _ => true)
      (fun _ => Except.ok []) (fun _ _ => none) "ns0" [] [] "img" "n1"
      rfl rfl).2⟩

/-- The property that a status message mentions the node by name. -/
def NamesNode (msg node : String) : Prop :=
  ∃ p q, msg = p ++ node ++ q

/-- C6: `Filter`'s verdict is decided solely by the recorded cycle state:
with a populated state, membership of the candidate in the compatible set
gives `Success` and absence gives `Unschedulable` with a reason naming the
node; a missing or wrongly-typed cycle state gives an `Error` status, not an
`Unschedulable` verdict. -/
theorem filter_verdict_from_cycle_state (s : CompatibilityState)
    (node : String) :
    (node ∈ s.CompatibleNodes →
      Filter (CycleRead.ok s) (some node) = ⟨StatusCode.Success, ""⟩) ∧
    (node ∉ s.CompatibleNodes →
      (Filter (CycleRead.ok s) (some node)).code = StatusCode.Unschedulable ∧
      NamesNode (Filter (CycleRead.ok s) (some node)).message node) ∧
    (Filter CycleRead.missing (some node)).code = StatusCode.Error ∧
    (Filter CycleRead.wrongType (some node)).code = StatusCode.Error ∧
    (Filter CycleRead.missing (some node)).code ≠ StatusCode.Unschedulable ∧
    (Filter CycleRead.wrongType (some node)).code ≠
      StatusCode.Unschedulable := by
  refine ⟨?_, ?_, rfl, rfl, ?_, ?_⟩
  · intro hmem
    have hne : s.CompatibleNodes ≠ ∅ := by
      intro hempty
      rw [hempty] at hmem
      exact absurd hmem (Finset.not_mem_empty node)
    simp [Filter, getCompatibilityState, hne, hmem]
  · intro hmem
    by_cases hempty : s.CompatibleNodes = ∅
    · exact ⟨by simp [Filter, getCompatibilityState, hempty],
        ⟨"node ", " is not compatible with pod images",
          by simp [Filter, getCompatibilityState, hempty]⟩⟩
    · exact ⟨by simp [Filter, getCompatibilityState, hempty, hmem],
        ⟨"node ", " is not listed in any compatible NodeFeatureGroup status",
          by simp [Filter, getCompatibilityState, hempty, hmem]⟩⟩
  · simp [Filter, getCompatibilityState]
  · simp [Filter, getCompatibilityState]

/-- Witness for C6: compatible set `{n1}`: node `n1` passes, node `n2` is
unschedulable. -/
theorem filter_verdict_from_cycle_state_witness :
    Filter (CycleRead.ok ⟨{"n1"}, ["g"], "ns0"⟩) (some "n1") =
      ⟨StatusCode.Success, ""⟩ ∧
    (Filter (CycleRead.ok ⟨{"n1"}, ["g"], "ns0"⟩) (some "n2")).code =
      StatusCode.Unschedulable :=
  ⟨(filter_verdict_from_cycle_state ⟨{"n1"}, ["g"], "ns0"⟩ "n1").1
      (by decide),
    ((filter_verdict_from_cycle_state ⟨{"n1"}, ["g"], "ns0"⟩ "n2").2.1
      (by decide)).1⟩

/-- A deleted cache key no longer resolves. -/
theorem find_cacheErase (c : Cache) (imageName : String) :
    (cacheErase c imageName).find? (fun p => p.1 == imageName) = none := by
  rw [List.find?_eq_none]
  intro p hp
  have := (List.mem_filter.mp hp).2
  simp only [bne_iff_ne, ne_eq, decide_eq_true_eq] at this
  simp [this]

/-- A deleted cache key reads back as absent. -/
theorem cacheLookup_erase_self (c : Cache) (imageName : String) :
    cacheLookup (cacheErase c imageName) imageName = none := by
  simp [cacheLookup, find_cacheErase]

/-- An overwritten cache key reads back the written value. -/
theorem cacheLookup_insert_self (c : Cache) (imageName : String)
    (v : List String) :
    cacheLookup (cacheInsert c imageName v) imageName = some v := by
  simp [cacheLookup, cacheInsert, List.find?_append, find_cacheErase]

/-- C3: cache validation on read is self-healing.  For a cached image whose
recorded (non-empty) name list is `cached`, exactly the names whose per-name
get succeeds (`cached.filter getEnv`) survive: if none survive the entry is
deleted and not-found is reported; if a strict subset survives, the shrunk
list is persisted back and found is reported with the shrunk list; if all
survive, found is reported with the recorded list and the cache is
untouched. -/
theorem getValidCachedNFGs_self_healing (getEnv : String → Bool) (c : Cache)
    (imageName : String) (cached : List String)
    (hc : cacheLookup c imageName = some cached) (hne : cached ≠ []) :
    (cached.filter getEnv = [] →
      getValidCachedNFGs getEnv c imageName =
        (removeFromCache c imageName, [], false) ∧
      cacheLookup (removeFromCache c imageName) imageName = none) ∧
    (cached.filter getEnv ≠ [] → cached.filter getEnv ≠ cached →
      getValidCachedNFGs getEnv c imageName =
        (updateCacheForImage c imageName (cached.filter getEnv),
          cached.filter getEnv, true) ∧
      cacheLookup (updateCacheForImage c imageName (cached.filter getEnv))
          imageName = some (cached.filter getEnv)) ∧
    (cached.filter getEnv = cached →
      getValidCachedNFGs getEnv c imageName = (c, cached, true)) := by
  refine ⟨?_, ?_, ?_⟩
  · intro hv
    refine ⟨?_, cacheLookup_erase_self c imageName⟩
    simp [getValidCachedNFGs, hc, hne, hv, removeFromCache]
  · intro hv hvne
    have hlen : (cached.filter getEnv).length ≠ cached.length := fun h =>
      hvne ((List.filter_sublist cached).eq_of_length h)
    refine ⟨?_, ?_⟩
    · simp [getValidCachedNFGs, hc, hne, hv, hlen]
    · simp [updateCacheForImage, hv, cacheLookup_insert_self]
  · intro hv
    have hlen : (cached.filter getEnv).length = cached.length := by rw [hv]
    simp [getValidCachedNFGs, hc, hne, hv, hlen]

/-- Witness for C3, the spec's partial-invalidation example: cached
`[g1, g2]`, only `g1` still resolves, so the entry shrinks to `[g1]` and is
reported found. -/
theorem getValidCachedNFGs_self_healing_witness :
    getValidCachedNFGs (fun g => g == "g1") [("img", ["g1", "g2"])] "img" =
      (updateCacheForImage [("img", ["g1", "g2"])] "img"
          (["g1", "g2"].filter (fun g => g == "g1")),
        ["g1", "g2"].filter (fun g => g == "g1"), true) ∧
    ["g1", "g2"].filter (fun g => g == "g1") = ["g1"] :=
  ⟨((getValidCachedNFGs_self_healing (fun g => g == "g1")
      [("img", ["g1", "g2"])] "img" ["g1", "g2"] (by decide) (by decide)).2.1
      (by decide) (by decide)).1, by decide⟩

/-- C7: a cache update with an empty name list is a no-op — the cache value
is unchanged, no entry is created — and when the image was not cached before,
a subsequent read still reports not-found. -/
theorem updateCacheForImage_empty_noop (getEnv : String → Bool) (c : Cache)
    (imageName : String) :
    updateCacheForImage c imageName [] = c ∧
    (cacheLookup c imageName = none →
      getValidCachedNFGs getEnv (updateCacheForImage c imageName []) imageName =
        (c, [], false)) := by
  refine ⟨rfl, ?_⟩
  intro h
  simp [updateCacheForImage, getValidCachedNFGs, h]

/-- Witness for C7: empty update on an empty cache, then a read misses. -/
theorem updateCacheForImage_empty_noop_witness :
    updateCacheForImage [] "img" [] = [] ∧
    getValidCachedNFGs (fun _ => true) (updateCacheForImage [] "img" []) "img" =
      ([], [], false) :=
  ⟨(updateCacheForImage_empty_noop (fun _ => true) [] "img").1,
    (updateCacheForImage_empty_noop (fun _ => true) [] "img").2 rfl⟩

/-- C10: per-Pod group creation is not atomic across images.  If the first
image's groups are created (and cached) and creation for the second image
fails, `createNodeFeatureGroupsForPod` returns the error and no names, but
the first image's groups stay in the external store (`w ++ ns1`) and the
cache still maps the first image to its created names. -/
theorem createNodeFeatureGroupsForPod_not_atomic (getEnv : String → Bool)
    (imgEnv : String → Except Unit (List String)) (c : Cache)
    (w : List String) (i1 i2 : String) (ns1 : List String)
    (h1 : cacheLookup c i1 = none) (h2 : imgEnv i1 = Except.ok ns1)
    (h3 : ns1 ≠ [])
    (h4 : cacheLookup (updateCacheForImage c i1 ns1) i2 = none)
    (h5 : imgEnv i2 = Except.error ()) :
    createNodeFeatureGroupsForPod getEnv imgEnv c w [i1, i2] =
      (updateCacheForImage c i1 ns1, w ++ ns1, Except.error ()) ∧
    cacheLookup (updateCacheForImage c i1 ns1) i1 = some ns1 := by
  constructor
  · simp [createNodeFeatureGroupsForPod, createNodeFeatureGroupsForImage,
      getValidCachedNFGs, h1, h2, h4, h5]
  · simp [updateCacheForImage, h3, cacheLookup_insert_self]

/-- Witness for C10: image `a` creates group `g1`, image `b` fails; the
error is returned yet `g1` exists in the store and stays cached for `a`. -/
theorem createNodeFeatureGroupsForPod_not_atomic_witness :
    createNodeFeatureGroupsForPod (fun _ => true)
        (fun i => if i == "a" then Except.ok ["g1"] else Except.error ())
        [] [] ["a", "b"] =
      (updateCacheForImage [] "a" ["g1"], [] ++ ["g1"], Except.error ()) ∧
    cacheLookup (updateCacheForImage [] "a" ["g1"]) "a" = some ["g1"] :=
  createNodeFeatureGroupsForPod_not_atomic (fun _ => true)
    (fun i => if i == "a" then Except.ok ["g1"] else Except.error ())
    [] [] "a" "b" ["g1"] rfl rfl (by decide) (by decide) rfl

/-- C8: `CompatibilityState.Clone` is a deep copy.  The clone's node set,
group-name list and namespace read equal to the original's, and mutating the
clone — inserting into or deleting from its node set, or appending to its
group list — leaves the original's node set and group list unchanged. -/
theorem cloneState_deep_copy (st : Store) (s : StateRef) (n g : String)
    (hm : s.nodesRef < st.maps.length) (hsl : s.nfgsRef < st.slices.length) :
    readNodes (cloneState st s).1 (cloneState st s).2.nodesRef =
      readNodes st s.nodesRef ∧
    readNFGs (cloneState st s).1 (cloneState st s).2.nfgsRef =
      readNFGs st s.nfgsRef ∧
    (cloneState st s).2.ns = s.ns ∧
    readNodes (insertNode (cloneState st s).1 (cloneState st s).2 n)
        s.nodesRef = readNodes st s.nodesRef ∧
    readNodes (eraseNode (cloneState st s).1 (cloneState st s).2 n)
        s.nodesRef = readNodes st s.nodesRef ∧
    readNFGs (appendNFG (cloneState st s).1 (cloneState st s).2 g)
        s.nfgsRef = readNFGs st s.nfgsRef := by
  have hmapne : st.maps.length ≠ s.nodesRef := Nat.ne_of_gt hm
  have hslne : st.slices.length ≠ s.nfgsRef := Nat.ne_of_gt hsl
  refine ⟨?_, ?_, rfl, ?_, ?_, ?_⟩
  · simp [cloneState, allocNodes, allocNFGs, readNodes,
      List.getElem?_concat_length]
  · simp [cloneState, allocNodes, allocNFGs, readNFGs,
      List.getElem?_concat_length]
  · simp [cloneState, allocNodes, allocNFGs, insertNode, readNodes,
      List.getElem?_set_ne hmapne, List.getElem?_append_left hm]
  · simp [cloneState, allocNodes, allocNFGs, eraseNode, readNodes,
      List.getElem?_set_ne hmapne, List.getElem?_append_left hm]
  · simp [cloneState, allocNodes, allocNFGs, appendNFG, readNFGs,
      List.getElem?_set_ne hslne, List.getElem?_append_left hsl]

/-- Witness for C8: a one-state store; the clone reads back the original's
contents, and mutating the clone leaves the original's contents intact. -/
theorem cloneState_deep_copy_witness :
    readNodes (cloneState ⟨[{"n1"}], [["g1"]]⟩ ⟨0, 0, "ns0"⟩).1
        (cloneState ⟨[{"n1"}], [["g1"]]⟩ ⟨0, 0, "ns0"⟩).2.nodesRef =
      readNodes ⟨[{"n1"}], [["g1"]]⟩ 0 ∧
    readNodes
        (insertNode (cloneState ⟨[{"n1"}], [["g1"]]⟩ ⟨0, 0, "ns0"⟩).1
          (cloneState ⟨[{"n1"}], [["g1"]]⟩ ⟨0, 0, "ns0"⟩).2 "n2") 0 =
      readNodes ⟨[{"n1"}], [["g1"]]⟩ 0 ∧
    readNFGs
        (appendNFG (cloneState ⟨[{"n1"}], [["g1"]]⟩ ⟨0, 0, "ns0"⟩).1
          (cloneState ⟨[{"n1"}], [["g1"]]⟩ ⟨0, 0, "ns0"⟩).2 "g2") 0 =
      readNFGs ⟨[{"n1"}], [["g1"]]⟩ 0 :=
  ⟨(cloneState_deep_copy ⟨[{"n1"}], [["g1"]]⟩ ⟨0, 0, "ns0"⟩ "n2" "g2"
      (by decide) (by decide)).1,
    (cloneState_deep_copy ⟨[{"n1"}], [["g1"]]⟩ ⟨0, 0, "ns0"⟩ "n2" "g2"
      (by decide) (by decide)).2.2.2.1,
    (cloneState_deep_copy ⟨[{"n1"}], [["g1"]]⟩ ⟨0, 0, "ns0"⟩ "n2" "g2"
      (by decide) (by decide)).2.2.2.2.2⟩

end ImageCompat
